import Mathlib

/-!
Shallow embedding of `openapi_spec_validator/__main__.py`: the CLI entry
point of the openapi-spec-validator package.  Pure parts of the module
(`print_ok`, `print_error`, `print_validationerror`, the validator
dispatch table and the per-file loop of `main`) are translated directly;
printing is modelled as accumulating the list of strings passed to the
successive `print` calls, and `sys.exit(c)` as recording the exit code.
External collaborators (the readers, the four validators and jsonschema's
`best_match`/`str` rendering) are not under `src/` and are modelled from
the specification.
-/

/-- A jsonschema `ValidationError` node, modelled from the spec (§3 data
model): `message`, `path` (sequence of keys/indices), optional `cause`,
and the ordered `context` sequence of sibling sub-errors, non-empty only
at a branch point. -/
inductive VError where
  | mk (message : String) (path : List String) (cause : Option VError)
       (context : List VError)

/-- The `message` attribute of a `ValidationError`. -/
def VError.message : VError → String
  | .mk m _ _ _ => m

/-- The `path` attribute of a `ValidationError`. -/
def VError.path : VError → List String
  | .mk _ p _ _ => p

/-- The `cause` attribute of a `ValidationError`. -/
def VError.cause : VError → Option VError
  | .mk _ _ c _ => c

/-- The `context` attribute of a `ValidationError`. -/
def VError.context : VError → List VError
  | .mk _ _ _ ctx => ctx

/-- Modelled from the spec: the external `str` rendering of a jsonschema
`ValidationError` (a deterministic pure function of the node, §5 ordering
guarantee), represented here by the node's `message`. -/
def vstr (e : VError) : String :=
  e.message

/-- Modelled from the spec (§4.5 heuristic order): `challenger` is
strictly preferred over `incumbent` when its `path` is deeper, or on a
depth tie when it has fewer further nested context branches; otherwise
the incumbent (the earlier sibling, declaration order) is kept. -/
def prefOver (challenger incumbent : VError) : Bool :=
  decide (incumbent.path.length < challenger.path.length
    ∨ (challenger.path.length = incumbent.path.length
        ∧ challenger.context.length < incumbent.context.length))

/-- Fold selecting the preferred candidate among `cur` and the remaining
list, replacing the current choice only when strictly preferred, so that
declaration order breaks ties. -/
def pick1 : VError → List VError → VError
  | cur, [] => cur
  | cur, e :: rest => pick1 (if prefOver e cur then e else cur) rest

theorem pick1_mem (l : List VError) (cur : VError) :
    pick1 cur l = cur ∨ pick1 cur l ∈ l := by
  induction l generalizing cur with
  | nil => exact Or.inl rfl
  | cons e rest ih =>
    by_cases h : prefOver e cur
    · rcases ih (if prefOver e cur then e else cur) with h' | h'
      · rw [pick1, h', if_pos h]
        exact Or.inr (List.mem_cons_self _ _)
      · exact Or.inr (List.mem_cons_of_mem _ (by rw [pick1] at *; exact h'))
    · rcases ih (if prefOver e cur then e else cur) with h' | h'
      · rw [pick1, h', if_neg h]
        exact Or.inl rfl
      · exact Or.inr (List.mem_cons_of_mem _ (by rw [pick1] at *; exact h'))

theorem sizeOf_lt_of_context_cons (x c : VError) (cs : List VError)
    (h : x.context = c :: cs) : sizeOf c + sizeOf cs < sizeOf x := by
  cases x with
  | mk m p cause ctx =>
    simp only [VError.context] at h
    subst h
    simp only [VError.mk.sizeOf_spec, List.cons.sizeOf_spec]
    omega

/-- Modelled from the spec (§4.5 best-match mode): select the single
sub-error judged most likely the real cause among the non-empty candidate
list `first :: rest` — deepest `path` first, then fewer nested context
branches, then declaration order — and recursively reduce the chosen
sub-error the same way while it has nested context. -/
def bestMatch (first : VError) (rest : List VError) : VError :=
  match h : (pick1 first rest).context with
  | [] => pick1 first rest
  | c :: cs => bestMatch c cs
termination_by sizeOf first + sizeOf rest
decreasing_by
  rcases pick1_mem rest first with heq | hmem
  · have := sizeOf_lt_of_context_cons _ _ _ h
    rw [heq] at this
    omega
  · have h1 := sizeOf_lt_of_context_cons _ _ _ h
    have h2 := List.sizeOf_lt_of_mem hmem
    omega

/-- `print_ok`: confirmation line for a valid file. -/
def print_ok (filename : String) : String :=
  filename ++ ": OK"

/-- `print_error`: failure line for a non-ValidationError exception, whose
`str` rendering is `excMsg`. -/
def print_error (filename : String) (excMsg : String) : String :=
  filename ++ ": Error: " ++ excMsg

/-- `print_validationerror`: the report printed for a `ValidationError`,
as the list of strings passed to the successive `print` calls (the final
two-argument `print` joins its arguments with a single space). -/
def print_validationerror (filename : String) (exc : VError)
    (errors : String) : List String :=
  [filename ++ ": Validation Error: " ++ vstr exc]
  ++ (match exc.cause with
      | some c => ["\n# Cause\n", vstr c]
      | none => [])
  ++ (match exc.context with
      | [] => []
      | c :: cs =>
        if errors = "all" then
          ["\n\n# Due to one of those errors\n",
           String.intercalate "\n\n\n" ((c :: cs).map (fun e => "## " ++ vstr e))]
        else if errors = "best-match" then
          ["\n\n# Probably due to this subschema error\n",
           "## " ++ vstr (bestMatch c cs)]
          ++ (if (c :: cs).length > 1 then
                ["\n(" ++ toString ((c :: cs).length - 1)
                  ++ " more subschemas errors, use --errors=all to see them.)"]
              else [])
        else [])

/-- Outcome of `validator.validate(spec, spec_url=spec_url)`: it returns,
raises a `ValidationError`, or raises some other exception (whose `str`
rendering is `excMsg`). -/
inductive VOutcome where
  | ok
  | vError (e : VError)
  | exn (excMsg : String)

/-- Modelled from the spec: the external collaborators of `main` that are
not under `src/` — the readers `read_from_filename`/`read_from_stdin`
(`read(sourceIdentifier) -> (document, baseURI)`, failing with an opaque
reader error, §6) and the four validator objects exposed by
`openapi_spec_validator.validation`.  The document type `α` is opaque to
the CLI. -/
structure Env (α : Type) where
  read_from_filename : String → Except String (α × String)
  read_from_stdin : String → Except String (α × String)
  openapi_v2_spec_validator : α → String → VOutcome
  openapi_v30_spec_validator : α → String → VOutcome
  openapi_v31_spec_validator : α → String → VOutcome
  openapi_spec_validator_proxy : α → String → VOutcome

/-- The `validators` dictionary built in `main`, keyed by the `--schema`
choice. -/
def validators {α : Type} (env : Env α) : List (String × (α → String → VOutcome)) :=
  [("2.0", env.openapi_v2_spec_validator),
   ("3.0.0", env.openapi_v30_spec_validator),
   ("3.1.0", env.openapi_v31_spec_validator),
   ("detect", env.openapi_spec_validator_proxy)]

/-- The reader choice of `main`: a filename equal to a dash or to
slash-dash switches to `read_from_stdin`, called with the rewritten
filename `"stdin"`; any other filename is read with
`read_from_filename`. -/
def readFile {α : Type} (env : Env α) (f : String) : Except String (α × String) :=
  if f = "-" ∨ f = "/-" then env.read_from_stdin "stdin"
  else env.read_from_filename f

/-- Observable result of a `main` run: the printed lines in order, the
`sys.exit` code (`none` when `main` returns normally, i.e. exit 0), and
whether an exception escaped `main` uncaught. -/
structure MainResult where
  output : List String
  exit : Option Nat
  crashed : Bool
deriving DecidableEq, Repr

/-- The per-file loop of `main`: choose the source (rewriting the dash
and slash-dash arguments to `"stdin"`), read it (printing the reader error and exiting 1 on
failure), look the validator up by the `--schema` choice (an unknown key
would raise an uncaught `KeyError`), validate (printing the report and
exiting 1 on `ValidationError`, printing the error and exiting 2 on any
other exception), and print the `OK` confirmation before moving to the
next file. -/
def processFiles {α : Type} (env : Env α) (schema errors : String) :
    List String → MainResult
  | [] => ⟨[], none, false⟩
  | f :: rest =>
    let filename := if f = "-" ∨ f = "/-" then "stdin" else f
    match readFile env f with
    | .error exc => ⟨[exc], some 1, false⟩
    | .ok (spec, spec_url) =>
      match List.lookup schema (validators env) with
      | none => ⟨[], none, true⟩
      | some validator =>
        match validator spec spec_url with
        | .vError e => ⟨print_validationerror filename e errors, some 1, false⟩
        | .exn msg => ⟨[print_error filename msg], some 2, false⟩
        | .ok =>
          let r := processFiles env schema errors rest
          ⟨print_ok filename :: r.output, r.exit, r.crashed⟩

namespace Cli

/-- `main` after argument parsing: `files` is the positional `file` list
(argparse requires at least one), `schema` the `--schema` choice and
`errors` the `--errors` choice. -/
def main {α : Type} (env : Env α) (files : List String)
    (schema : String) (errors : String) : MainResult :=
  processFiles env schema errors files

end Cli

/-- A file on which the loop of `main` succeeds: its source reads
successfully, the `--schema` key is in the dispatch table, and the chosen
validator returns without raising. -/
def fileSucceeds {α : Type} (env : Env α) (schema : String) (f : String) : Prop :=
  ∃ p, readFile env f = Except.ok p
    ∧ ∃ v, List.lookup schema (validators env) = some v ∧ v p.1 p.2 = VOutcome.ok

/-- `needle` occurs at the start of `hay`. -/
def matchesAt : List Char → List Char → Bool
  | _, [] => true
  | [], _ :: _ => false
  | a :: as, b :: bs => a == b && matchesAt as bs

/-- `needle` occurs somewhere in `hay`. -/
def subSearch : List Char → List Char → Bool
  | _, [] => true
  | [], _ :: _ => false
  | h :: t, n => matchesAt (h :: t) n || subSearch t n

/-- The second string occurs as a substring of the first. -/
def strHas (hay needle : String) : Bool :=
  subSearch hay.toList needle.toList

/-- Candidate sub-error at path depth 2. -/
def errD2 : VError := .mk "suberror a" ["paths", "p2"] none []

/-- Candidate sub-error at path depth 4. -/
def errD4 : VError := .mk "suberror b" ["paths", "p4", "get", "responses"] none []

/-- Candidate sub-error at path depth 3. -/
def errD3 : VError := .mk "suberror c" ["paths", "p3", "get"] none []

/-- A synthetic branch-point error with three candidate sub-errors at
path depths 2, 4 and 3. -/
def branchErr : VError :=
  .mk "not valid under any of the given schemas" [] none [errD2, errD4, errD3]

/-- C7: for a fixed filename, ValidationError and error mode, two calls of
`print_validationerror` produce identical printed output — the rendered
report is a deterministic pure function of its inputs (it reads no state
other than its three arguments). -/
theorem print_validationerror_deterministic :
    ∀ (filename : String) (exc : VError) (errors : String),
      print_validationerror filename exc errors
        = print_validationerror filename exc errors := by
  intro filename exc errors
  rfl

/-- C6: for a ValidationError with empty context, `print_validationerror`
prints the main message and the cause section (when a cause is present)
and nothing else, in every error mode — no subschema section, no
failure. -/
theorem empty_context_passthrough (f msg : String) (p : List String)
    (cause : Option VError) (m : String) :
    print_validationerror f (VError.mk msg p cause []) m =
      [f ++ ": Validation Error: " ++ msg]
      ++ (match cause with
          | some c => ["\n# Cause\n", vstr c]
          | none => []) := by
  cases cause <;> rfl

/-- C1 counterexample: on a branch-point error with three candidate
sub-errors, "all" mode prints the three candidates but no remaining-
siblings count — no printed string contains "more subschemas", refuting
the claim that all mode reports "(2 more subschemas errors...)". -/
theorem allmode_count_counterexample :
    print_validationerror "spec.yaml" branchErr "all" =
      ["spec.yaml: Validation Error: not valid under any of the given schemas",
       "\n\n# Due to one of those errors\n",
       "## suberror a\n\n\n## suberror b\n\n\n## suberror c"]
    ∧ (print_validationerror "spec.yaml" branchErr "all").all
        (fun s => !(strHas s "more subschemas")) = true := by
  constructor
  · rfl
  · decide

/-- C1 (amended): for every ValidationError with non-empty context, "all"
mode prints every candidate sub-error of the context sequence (joined in
a single print) but no count of remaining siblings; the count
"(N-1 more subschemas errors, use --errors=all to see them.)" is instead
printed by best-match mode when the context holds more than one
candidate. -/
theorem allmode_prints_all_candidates (f msg : String) (p : List String)
    (cause : Option VError) (c : VError) (cs : List VError) :
    print_validationerror f (VError.mk msg p cause (c :: cs)) "all" =
      [f ++ ": Validation Error: " ++ msg]
      ++ (match cause with
          | some x => ["\n# Cause\n", vstr x]
          | none => [])
      ++ ["\n\n# Due to one of those errors\n",
          String.intercalate "\n\n\n" ((c :: cs).map (fun x => "## " ++ vstr x))]
    ∧ print_validationerror f (VError.mk msg p cause (c :: cs)) "best-match" =
      [f ++ ": Validation Error: " ++ msg]
      ++ (match cause with
          | some x => ["\n# Cause\n", vstr x]
          | none => [])
      ++ ["\n\n# Probably due to this subschema error\n",
          "## " ++ vstr (bestMatch c cs)]
      ++ (if cs.length > 0 then
            ["\n(" ++ toString cs.length
              ++ " more subschemas errors, use --errors=all to see them.)"]
          else []) := by
  constructor
  · cases cause <;> rfl
  · cases cause <;> cases cs <;>
      simp [print_validationerror, VError.cause, VError.context, vstr,
        VError.message]

theorem prefOver_false_le (e cur : VError) (h : prefOver e cur = false) :
    e.path.length ≤ cur.path.length := by
  unfold prefOver at h
  rw [decide_eq_false_iff_not] at h
  push_neg at h
  omega

theorem prefOver_true_le (e cur : VError) (h : prefOver e cur = true) :
    cur.path.length ≤ e.path.length := by
  unfold prefOver at h
  rw [decide_eq_true_eq] at h
  omega

theorem pick1_path_ge (l : List VError) (cur : VError) :
    cur.path.length ≤ (pick1 cur l).path.length
    ∧ ∀ x ∈ l, x.path.length ≤ (pick1 cur l).path.length := by
  induction l generalizing cur with
  | nil => exact ⟨Nat.le_refl _, by intro x hx; cases hx⟩
  | cons e rest ih =>
    have step := ih (if prefOver e cur then e else cur)
    have hcur : cur.path.length ≤ (if prefOver e cur then e else cur).path.length := by
      by_cases hp : prefOver e cur
      · rw [if_pos hp]; exact prefOver_true_le e cur hp
      · rw [if_neg hp]
    have he : e.path.length ≤ (if prefOver e cur then e else cur).path.length := by
      by_cases hp : prefOver e cur
      · rw [if_pos hp]
      · rw [if_neg hp]
        exact prefOver_false_le e cur (Bool.not_eq_true _ ▸ hp)
    refine ⟨Nat.le_trans hcur step.1, ?_⟩
    intro x hx
    rcases List.mem_cons.mp hx with rfl | hx'
    · exact Nat.le_trans he step.1
    · exact step.2 x hx'

theorem bestMatch_flat (first : VError) (rest : List VError)
    (hflat : ∀ x ∈ first :: rest, x.context = []) :
    bestMatch first rest = pick1 first rest := by
  have hctx : (pick1 first rest).context = [] := by
    rcases pick1_mem rest first with h | h
    · rw [h]; exact hflat first (List.mem_cons_self _ _)
    · exact hflat _ (List.mem_cons_of_mem _ h)
  unfold bestMatch
  split
  · rfl
  · next c cs heq => rw [hctx] at heq; cases heq

/-- C2: for a ValidationError whose context is the non-empty candidate
list `c :: cs` (each candidate itself without nested context, as in the
spec's synthetic branch point), best-match mode selects and prints
exactly one sub-error — a member of the context whose path is deepest —
as the single "## " entry of the report. -/
theorem bestmatch_selects_deepest (f msg : String) (p : List String)
    (cause : Option VError) (c : VError) (cs : List VError)
    (hflat : ∀ x ∈ c :: cs, x.context = []) :
    bestMatch c cs ∈ c :: cs
    ∧ (∀ x ∈ c :: cs, x.path.length ≤ (bestMatch c cs).path.length)
    ∧ print_validationerror f (VError.mk msg p cause (c :: cs)) "best-match" =
        [f ++ ": Validation Error: " ++ msg]
        ++ (match cause with
            | some x => ["\n# Cause\n", vstr x]
            | none => [])
        ++ ["\n\n# Probably due to this subschema error\n",
            "## " ++ vstr (bestMatch c cs)]
        ++ (if (c :: cs).length > 1 then
              ["\n(" ++ toString ((c :: cs).length - 1)
                ++ " more subschemas errors, use --errors=all to see them.)"]
            else []) := by
  rw [bestMatch_flat c cs hflat]
  refine ⟨?_, ?_, ?_⟩
  · rcases pick1_mem cs c with h | h
    · rw [h]; exact List.mem_cons_self _ _
    · exact List.mem_cons_of_mem _ h
  · intro x hx
    rcases List.mem_cons.mp hx with rfl | hx'
    · exact (pick1_path_ge cs x).1
    · exact (pick1_path_ge cs c).2 x hx'
  · rw [← bestMatch_flat c cs hflat]
    cases cause <;> rfl

/-- C2 witness: on the synthetic branch point with candidates at path
depths 2, 4 and 3, best-match mode selects the depth-4 candidate. -/
theorem bestmatch_selects_deepest_witness :
    (∀ x ∈ [errD2, errD4, errD3], VError.context x = [])
    ∧ bestMatch errD2 [errD4, errD3] = errD4
    ∧ bestMatch errD2 [errD4, errD3] ∈ [errD2, errD4, errD3]
    ∧ (∀ x ∈ [errD2, errD4, errD3],
        x.path.length ≤ (bestMatch errD2 [errD4, errD3]).path.length) := by
  have hflat : ∀ x ∈ [errD2, errD4, errD3], VError.context x = [] := by
    intro x hx
    rcases List.mem_cons.mp hx with rfl | hx'
    · rfl
    rcases List.mem_cons.mp hx' with rfl | hx''
    · rfl
    rcases List.mem_cons.mp hx'' with rfl | hx'''
    · rfl
    · cases hx'''
  have h := bestmatch_selects_deepest "t" "m" [] none errD2 [errD4, errD3] hflat
  have hval : bestMatch errD2 [errD4, errD3] = errD4 := by
    rw [bestMatch_flat errD2 [errD4, errD3] hflat]
    rfl
  exact ⟨hflat, hval, h.1, h.2.1⟩

theorem lookup_validators_proxy_swap {α : Type} (env : Env α)
    (proxyAlt : α → String → VOutcome) (schema : String)
    (h : schema = "2.0" ∨ schema = "3.0.0" ∨ schema = "3.1.0") :
    List.lookup schema
        (validators { env with openapi_spec_validator_proxy := proxyAlt })
      = List.lookup schema (validators env) := by
  rcases h with h | h | h <;> subst h <;> rfl

theorem processFiles_proxy_indep {α : Type} (env : Env α)
    (proxyAlt : α → String → VOutcome) (schema errors : String)
    (h : schema = "2.0" ∨ schema = "3.0.0" ∨ schema = "3.1.0") :
    ∀ files, processFiles { env with openapi_spec_validator_proxy := proxyAlt }
        schema errors files
      = processFiles env schema errors files := by
  intro files
  induction files with
  | nil => rfl
  | cons f rest ih =>
    have hread : readFile { env with openapi_spec_validator_proxy := proxyAlt } f
        = readFile env f := rfl
    cases hr : readFile env f with
    | error exc =>
      simp only [processFiles, hread, lookup_validators_proxy_swap env proxyAlt schema h, hr]
    | ok p =>
      obtain ⟨spec, url⟩ := p
      cases hv : List.lookup schema (validators env) with
      | none =>
        simp only [processFiles, hread, lookup_validators_proxy_swap env proxyAlt schema h, hr, hv]
      | some v =>
        cases ho : v spec url with
        | vError e =>
          simp only [processFiles, hread, lookup_validators_proxy_swap env proxyAlt schema h, hr, hv, ho]
        | exn m =>
          simp only [processFiles, hread, lookup_validators_proxy_swap env proxyAlt schema h, hr, hv, ho]
        | ok =>
          simp only [processFiles, hread, lookup_validators_proxy_swap env proxyAlt schema h, hr, hv, ho, ih]

/-- C3: when the caller pins a schema version ("2.0", "3.0.0" or "3.1.0"
via --schema), `main` validates every file against exactly that version's
validator: its behaviour is unchanged when the detecting proxy validator
is replaced by anything (so the document's own version marker, seen only
by the proxy, is irrelevant), the dispatch table maps each pinned choice
to that version's validator, and only the default "detect" choice maps to
the detecting proxy. -/
theorem main_pinned_bypasses_detection {α : Type} (env : Env α)
    (proxyAlt : α → String → VOutcome) (files : List String)
    (schema errors : String)
    (h : schema = "2.0" ∨ schema = "3.0.0" ∨ schema = "3.1.0") :
    Cli.main { env with openapi_spec_validator_proxy := proxyAlt }
        files schema errors
      = Cli.main env files schema errors
    ∧ List.lookup "detect" (validators env)
        = some env.openapi_spec_validator_proxy
    ∧ (schema = "2.0" → List.lookup schema (validators env)
        = some env.openapi_v2_spec_validator)
    ∧ (schema = "3.0.0" → List.lookup schema (validators env)
        = some env.openapi_v30_spec_validator)
    ∧ (schema = "3.1.0" → List.lookup schema (validators env)
        = some env.openapi_v31_spec_validator) := by
  refine ⟨processFiles_proxy_indep env proxyAlt schema errors h files, rfl,
    ?_, ?_, ?_⟩ <;> (intro hs; subst hs; rfl)

/-- The ValidationError returned by the sample 3.1 validator below. -/
def sampleErr : VError := .mk "sample invalid" ["info"] none []

/-- A concrete environment over documents modelled as natural numbers:
file "bad" fails to read, every other file reads fine; the 2.0 and 3.0.0
validators accept, the 3.1.0 validator raises a ValidationError and the
detecting proxy raises a non-ValidationError exception. -/
def sampleEnv : Env Nat where
  read_from_filename := fun f =>
    if f = "bad" then Except.error "boom" else Except.ok (0, f)
  read_from_stdin := fun _ => Except.ok (1, "stdin")
  openapi_v2_spec_validator := fun _ _ => VOutcome.ok
  openapi_v30_spec_validator := fun _ _ => VOutcome.ok
  openapi_v31_spec_validator := fun _ _ => VOutcome.vError sampleErr
  openapi_spec_validator_proxy := fun _ _ => VOutcome.exn "proxy used"

/-- C3 witness: with the pinned schema "3.0.0" on the sample environment,
replacing the detecting proxy changes nothing. -/
theorem main_pinned_bypasses_detection_witness :
    (("3.0.0" : String) = "2.0" ∨ ("3.0.0" : String) = "3.0.0"
      ∨ ("3.0.0" : String) = "3.1.0")
    ∧ Cli.main { sampleEnv with
          openapi_spec_validator_proxy := fun _ _ => VOutcome.exn "alt" }
        ["x"] "3.0.0" "best-match"
      = Cli.main sampleEnv ["x"] "3.0.0" "best-match"
    ∧ List.lookup "detect" (validators sampleEnv)
        = some sampleEnv.openapi_spec_validator_proxy
    ∧ Cli.main sampleEnv ["x"] "3.0.0" "best-match"
        = ⟨["x: OK"], none, false⟩ := by
  have h := main_pinned_bypasses_detection sampleEnv
    (fun _ _ => VOutcome.exn "alt") ["x"] "3.0.0" "best-match"
    (Or.inr (Or.inl rfl))
  exact ⟨Or.inr (Or.inl rfl), h.1, h.2.1, by decide⟩

/-- C4: when a file's source reads successfully and validation raises, a
`ValidationError` makes `main` print the aggregated report and exit with
status 1, while any other exception makes it print the failure line and
exit with status 2 — two distinguishable failure statuses. -/
theorem validationerror_vs_other_exit {α : Type} (env : Env α)
    (schema errors f : String) (rest : List String) (spec : α) (url : String)
    (v : α → String → VOutcome)
    (hread : readFile env f = Except.ok (spec, url))
    (hv : List.lookup schema (validators env) = some v) :
    (∀ e, v spec url = VOutcome.vError e →
      processFiles env schema errors (f :: rest) =
        ⟨print_validationerror (if f = "-" ∨ f = "/-" then "stdin" else f)
           e errors, some 1, false⟩)
    ∧ (∀ m, v spec url = VOutcome.exn m →
      processFiles env schema errors (f :: rest) =
        ⟨[print_error (if f = "-" ∨ f = "/-" then "stdin" else f) m],
         some 2, false⟩) := by
  constructor
  · intro e he
    simp only [processFiles, hread, hv, he]
  · intro m hm
    simp only [processFiles, hread, hv, hm]

/-- C4 witness: on the sample environment, pinning "3.1.0" raises a
ValidationError on file "x", giving the report and exit status 1, while
"detect" (whose proxy raises a plain exception) gives the failure line
and exit status 2. -/
theorem validationerror_vs_other_exit_witness :
    readFile sampleEnv "x" = Except.ok (0, "x")
    ∧ List.lookup "3.1.0" (validators sampleEnv)
        = some sampleEnv.openapi_v31_spec_validator
    ∧ processFiles sampleEnv "3.1.0" "best-match" ["x"] =
        ⟨print_validationerror "x" sampleErr "best-match", some 1, false⟩
    ∧ processFiles sampleEnv "detect" "best-match" ["x"] =
        ⟨[print_error "x" "proxy used"], some 2, false⟩ := by
  have h1 := (validationerror_vs_other_exit sampleEnv "3.1.0" "best-match"
    "x" [] 0 "x" sampleEnv.openapi_v31_spec_validator rfl rfl).1 sampleErr rfl
  have h2 := (validationerror_vs_other_exit sampleEnv "detect" "best-match"
    "x" [] 0 "x" sampleEnv.openapi_spec_validator_proxy rfl rfl).2 "proxy used" rfl
  refine ⟨rfl, rfl, ?_, ?_⟩
  · simpa using h1
  · simpa using h2

/-- C5: for every `--schema` choice accepted by the argument parser, no
exception escapes `main`: in particular a `ValidationError` raised during
validation is captured into a printed report and an exit status, never
propagated to the caller. -/
theorem validationerror_never_escapes {α : Type} (env : Env α)
    (files : List String) (schema errors : String)
    (h : schema = "2.0" ∨ schema = "3.0.0" ∨ schema = "3.1.0"
      ∨ schema = "detect") :
    (Cli.main env files schema errors).crashed = false := by
  unfold Cli.main
  induction files with
  | nil => rfl
  | cons f rest ih =>
    have hsome : ∃ v, List.lookup schema (validators env) = some v := by
      rcases h with h | h | h | h <;> subst h <;> exact ⟨_, rfl⟩
    obtain ⟨v, hv⟩ := hsome
    cases hr : readFile env f with
    | error exc => simp only [processFiles, hr]
    | ok p =>
      obtain ⟨spec, url⟩ := p
      cases ho : v spec url with
      | vError e => simp only [processFiles, hr, hv, ho]
      | exn m => simp only [processFiles, hr, hv, ho]
      | ok => simp only [processFiles, hr, hv, ho]; exact ih

/-- C5 witness: a run whose validation raises a ValidationError finishes
with a report and exit status, with no escaped exception. -/
theorem validationerror_never_escapes_witness :
    (("3.1.0" : String) = "2.0" ∨ ("3.1.0" : String) = "3.0.0"
      ∨ ("3.1.0" : String) = "3.1.0" ∨ ("3.1.0" : String) = "detect")
    ∧ (Cli.main sampleEnv ["x"] "3.1.0" "best-match").crashed = false :=
  ⟨Or.inr (Or.inr (Or.inl rfl)),
   validationerror_never_escapes sampleEnv ["x"] "3.1.0" "best-match"
     (Or.inr (Or.inr (Or.inl rfl)))⟩

/-- C8: when a file's source reads successfully and the chosen validator
returns without raising, `main` prints the confirmation "filename: OK"
for it and moves on to the remaining files; for a single such file the
run ends without a failure status. -/
theorem ok_confirmation {α : Type} (env : Env α) (schema errors f : String)
    (rest : List String) (spec : α) (url : String)
    (v : α → String → VOutcome)
    (hread : readFile env f = Except.ok (spec, url))
    (hv : List.lookup schema (validators env) = some v)
    (hok : v spec url = VOutcome.ok) :
    processFiles env schema errors (f :: rest) =
      ⟨print_ok (if f = "-" ∨ f = "/-" then "stdin" else f)
         :: (processFiles env schema errors rest).output,
       (processFiles env schema errors rest).exit,
       (processFiles env schema errors rest).crashed⟩
    ∧ (processFiles env schema errors [f]).exit = none
    ∧ (processFiles env schema errors [f]).crashed = false
    ∧ print_ok (if f = "-" ∨ f = "/-" then "stdin" else f)
        = (if f = "-" ∨ f = "/-" then "stdin" else f) ++ ": OK" := by
  refine ⟨?_, ?_, ?_, rfl⟩
  · simp only [processFiles, hread, hv, hok]
  · simp only [processFiles, hread, hv, hok]
  · simp only [processFiles, hread, hv, hok]

/-- C8 witness: validating "x" against the accepting pinned 2.0 validator
prints "x: OK" and exits cleanly. -/
theorem ok_confirmation_witness :
    readFile sampleEnv "x" = Except.ok (0, "x")
    ∧ List.lookup "2.0" (validators sampleEnv)
        = some sampleEnv.openapi_v2_spec_validator
    ∧ sampleEnv.openapi_v2_spec_validator 0 "x" = VOutcome.ok
    ∧ processFiles sampleEnv "2.0" "all" ["x"] = ⟨["x: OK"], none, false⟩ := by
  have h := (ok_confirmation sampleEnv "2.0" "all" "x" [] 0 "x"
    sampleEnv.openapi_v2_spec_validator rfl rfl rfl).1
  refine ⟨rfl, rfl, rfl, ?_⟩
  simpa using h

/-- C9: an argument equal to a dash or to slash-dash is read from
standard input and every line printed for it names the source "stdin"
(processing it is indistinguishable from processing the dash argument,
and its result is the stdin-read, stdin-labelled computation); any other
argument `g` is read from the named file and labelled `g`. -/
theorem stdin_source {α : Type} (env : Env α) (schema errors : String)
    (rest : List String) (f g : String)
    (hf : f = "-" ∨ f = "/-") (hg1 : g ≠ "-") (hg2 : g ≠ "/-") :
    processFiles env schema errors (f :: rest)
      = processFiles env schema errors ("-" :: rest)
    ∧ processFiles env schema errors (f :: rest) =
        (match env.read_from_stdin "stdin" with
         | .error exc => ⟨[exc], some 1, false⟩
         | .ok (spec, url) =>
           match List.lookup schema (validators env) with
           | none => ⟨[], none, true⟩
           | some v =>
             match v spec url with
             | .vError e => ⟨print_validationerror "stdin" e errors, some 1, false⟩
             | .exn m => ⟨[print_error "stdin" m], some 2, false⟩
             | .ok =>
               let r := processFiles env schema errors rest
               ⟨print_ok "stdin" :: r.output, r.exit, r.crashed⟩)
    ∧ processFiles env schema errors (g :: rest) =
        (match env.read_from_filename g with
         | .error exc => ⟨[exc], some 1, false⟩
         | .ok (spec, url) =>
           match List.lookup schema (validators env) with
           | none => ⟨[], none, true⟩
           | some v =>
             match v spec url with
             | .vError e => ⟨print_validationerror g e errors, some 1, false⟩
             | .exn m => ⟨[print_error g m], some 2, false⟩
             | .ok =>
               let r := processFiles env schema errors rest
               ⟨print_ok g :: r.output, r.exit, r.crashed⟩) := by
  have hgc : ¬(g = "-" ∨ g = "/-") := by
    rintro (h | h)
    · exact hg1 h
    · exact hg2 h
  refine ⟨?_, ?_, ?_⟩
  · rcases hf with rfl | rfl <;> rfl
  · rcases hf with rfl | rfl <;> rfl
  · simp only [processFiles, readFile, if_neg hgc]

/-- C9 witness: slash-dash behaves like dash, and a run on the dash
argument of the sample environment reads stdin and labels all output
"stdin" (here the proxy's plain exception, so "stdin: Error: ..."). -/
theorem stdin_source_witness :
    (("/-" : String) = "-" ∨ ("/-" : String) = "/-")
    ∧ ("files.yaml" : String) ≠ "-"
    ∧ ("files.yaml" : String) ≠ "/-"
    ∧ processFiles sampleEnv "detect" "all" ["/-"]
        = processFiles sampleEnv "detect" "all" ["-"]
    ∧ processFiles sampleEnv "detect" "all" ["-"]
        = ⟨["stdin: Error: proxy used"], some 2, false⟩ := by
  have h := stdin_source sampleEnv "detect" "all" [] "/-" "files.yaml"
    (Or.inr rfl) (by decide) (by decide)
  exact ⟨Or.inr rfl, by decide, by decide, h.1, by decide⟩

theorem processFiles_fail_stops {α : Type} (env : Env α)
    (schema errors f : String) (hbad : ¬ fileSucceeds env schema f)
    (rest : List String) :
    processFiles env schema errors (f :: rest)
      = processFiles env schema errors [f] := by
  cases hr : readFile env f with
  | error exc => simp only [processFiles, hr]
  | ok p =>
    obtain ⟨spec, url⟩ := p
    cases hv : List.lookup schema (validators env) with
    | none => simp only [processFiles, hr, hv]
    | some v =>
      cases ho : v spec url with
      | vError e => simp only [processFiles, hr, hv, ho]
      | exn m => simp only [processFiles, hr, hv, ho]
      | ok => exact absurd ⟨(spec, url), hr, v, hv, ho⟩ hbad

theorem processFiles_ok_step {α : Type} (env : Env α)
    (schema errors f : String) (hok : fileSucceeds env schema f)
    (rest : List String) :
    processFiles env schema errors (f :: rest) =
      ⟨print_ok (if f = "-" ∨ f = "/-" then "stdin" else f)
         :: (processFiles env schema errors rest).output,
       (processFiles env schema errors rest).exit,
       (processFiles env schema errors rest).crashed⟩ := by
  obtain ⟨⟨spec, url⟩, hr, v, hv, ho⟩ := hok
  simp only [processFiles, hr, hv, ho]

/-- C10: `main` processes its files in argument order and stops at the
first file that fails (reading, validation, or any other error): the
result is the same whatever comes after the failing file (so later files
are never read or validated), its printed output is the "OK"
confirmation of every earlier, successfully validated file followed by
the failing file's output, and its exit status and crash state are those
of the failing file alone. -/
theorem first_failure_stops {α : Type} (env : Env α) (schema errors : String)
    (good : List String) (f : String) (rest rest' : List String)
    (hgood : ∀ g ∈ good, fileSucceeds env schema g)
    (hbad : ¬ fileSucceeds env schema f) :
    processFiles env schema errors (good ++ f :: rest)
      = processFiles env schema errors (good ++ f :: rest')
    ∧ (processFiles env schema errors (good ++ f :: rest)).output
        = good.map (fun g => print_ok (if g = "-" ∨ g = "/-" then "stdin" else g))
          ++ (processFiles env schema errors [f]).output
    ∧ (processFiles env schema errors (good ++ f :: rest)).exit
        = (processFiles env schema errors [f]).exit
    ∧ (processFiles env schema errors (good ++ f :: rest)).crashed
        = (processFiles env schema errors [f]).crashed := by
  induction good with
  | nil =>
    simp only [List.nil_append, List.map_nil]
    rw [processFiles_fail_stops env schema errors f hbad rest,
        processFiles_fail_stops env schema errors f hbad rest']
    exact ⟨rfl, rfl, rfl, rfl⟩
  | cons g gs ih =>
    have hg : fileSucceeds env schema g := hgood g (List.mem_cons_self _ _)
    have ihh := ih (fun x hx => hgood x (List.mem_cons_of_mem _ hx))
    rw [List.cons_append, List.cons_append,
        processFiles_ok_step env schema errors g hg (gs ++ f :: rest),
        processFiles_ok_step env schema errors g hg (gs ++ f :: rest')]
    refine ⟨?_, ?_, ?_, ?_⟩
    · rw [ihh.1]
    · simp only [List.map_cons, List.cons_append]
      rw [ihh.2.1]
    · exact ihh.2.2.1
    · exact ihh.2.2.2

/-- C10 witness: with a valid "x", a failing "bad" and a trailing "y",
the run is identical with and without "y", and prints "x: OK" followed by
the reader failure of "bad". -/
theorem first_failure_stops_witness :
    fileSucceeds sampleEnv "2.0" "x"
    ∧ ¬ fileSucceeds sampleEnv "2.0" "bad"
    ∧ processFiles sampleEnv "2.0" "all" ["x", "bad", "y"]
        = processFiles sampleEnv "2.0" "all" ["x", "bad"]
    ∧ (processFiles sampleEnv "2.0" "all" ["x", "bad", "y"]).output
        = ["x"].map (fun g => print_ok (if g = "-" ∨ g = "/-" then "stdin" else g))
          ++ (processFiles sampleEnv "2.0" "all" ["bad"]).output
    ∧ processFiles sampleEnv "2.0" "all" ["x", "bad", "y"]
        = ⟨["x: OK", "boom"], some 1, false⟩ := by
  have hx : fileSucceeds sampleEnv "2.0" "x" :=
    ⟨(0, "x"), rfl, sampleEnv.openapi_v2_spec_validator, rfl, rfl⟩
  have hbad : ¬ fileSucceeds sampleEnv "2.0" "bad" := by
    rintro ⟨p, hp, -⟩
    rw [show readFile sampleEnv "bad" = Except.error "boom" from rfl] at hp
    cases hp
  have h := first_failure_stops sampleEnv "2.0" "all" ["x"] "bad" ["y"] []
    (by intro g hg
        rcases List.mem_cons.mp hg with rfl | hg'
        · exact hx
        · cases hg')
    hbad
  exact ⟨hx, hbad, h.1, h.2.1, by decide⟩
